import Mathlib

/-!
Verification of the msgraph-webui-daemon token/cache refresh core.

The development shallowly embeds:
* `CacheManager` (the persistent revision with `TokenData`): token store,
  profile store and event cache over JavaScript `Map`s, modelled as
  association lists keyed by user id;
* `AuthController.refreshToken` / `AuthController.getValidAccessToken`
  (the revision that performs the OAuth refresh-token exchange), with the
  network modelled as an explicit `RefreshResponse` argument and the
  `AZURE_CLIENT_ID` environment variable as an `Option String` argument;
* the jittered background scheduler of `index.ts`
  (`getRandomDelay` / `scheduleNext`) and the browser-side
  countdown interval of `public/app.js`.

Times are milliseconds since the epoch, modelled as `Int` (JavaScript
numbers; the code compares and subtracts them). JavaScript truthiness is
embedded exactly: an absent field, the empty string and the number `0`
are falsy, so e.g. `!tokenData?.expiresAt` is true when `expiresAt` is
missing or `0`, and `x || y` on strings falls back on `y` when `x` is
missing or empty.
-/

namespace MSGraphWebUI

/-- JavaScript `Map.get`: the value stored under `key`, if any. -/
def mapGet {α : Type} : List (String × α) → String → Option α
  | [], _ => none
  | (k, v) :: rest, key => if k = key then some v else mapGet rest key

/-- JavaScript `Map.set`: overwrite in place, append when the key is new. -/
def mapSet {α : Type} : List (String × α) → String → α → List (String × α)
  | [], key, v => [(key, v)]
  | (k, w) :: rest, key, v =>
      if k = key then (key, v) :: rest else (k, w) :: mapSet rest key v

/-- The keys of a JavaScript `Map`, in insertion order (`Map.keys()`). -/
def mapKeys {α : Type} (m : List (String × α)) : List String :=
  m.map Prod.fst

/-- JavaScript truthiness of an optional string: absent and `""` are falsy. -/
def strTruthy : Option String → Bool
  | none => false
  | some s => decide (s ≠ "")

/-- JavaScript `x || y` on an optional string `x` with string fallback `y`. -/
def jsOrStr (x : Option String) (y : String) : String :=
  match x with
  | none => y
  | some s => if s = "" then y else s

/-- `interface TokenData` of `CacheManager`: per-user token record. -/
structure TokenData where
  accessToken : String
  refreshToken : Option String
  expiresAt : Option Int
  tokenType : Option String
deriving DecidableEq

/-- `interface UserProfile` of `CacheManager`. -/
structure UserProfile where
  id : String
  name : String
  email : String
  tenantId : Option String
deriving DecidableEq

/-- Start/end instants of a calendar event (`dateTime` + `timeZone`). -/
structure CalendarTime where
  dateTime : String
  timeZone : String
deriving DecidableEq

/-- `emailAddress` record of an event organizer. -/
structure EmailAddress where
  name : String
  address : String
deriving DecidableEq

/-- `organizer` field of a calendar event. -/
structure Organizer where
  emailAddress : EmailAddress
deriving DecidableEq

/-- `location` field of a calendar event. -/
structure EventLocation where
  displayName : String
deriving DecidableEq

/-- `interface CalendarEvent` of `CacheManager`; the source field `end`
is a reserved word, rendered here as `endTime`. -/
structure CalendarEvent where
  id : String
  subject : String
  start : CalendarTime
  endTime : CalendarTime
  location : Option EventLocation
  organizer : Option Organizer
  isOnlineMeeting : Option Bool
  onlineMeetingUrl : Option String
deriving DecidableEq

/-- In-memory state of `CacheManager`: the four `Map`s. Disk persistence
(`saveToDisk`) is best-effort and never read back during operation, so it
does not affect the in-memory transition functions embedded here. -/
structure CacheManager where
  tokenData : List (String × TokenData)
  userProfiles : List (String × UserProfile)
  cachedEvents : List (String × List CalendarEvent)
  cacheTimestamps : List (String × Int)
deriving DecidableEq

/-- `CacheManager.storeTokenData`: upsert the full token record. -/
def storeTokenData (cm : CacheManager) (userId : String) (td : TokenData) :
    CacheManager :=
  { cm with tokenData := mapSet cm.tokenData userId td }

/-- `CacheManager.storeAccessToken`: spread the existing record (or `{}`)
and overwrite only `accessToken`. -/
def storeAccessToken (cm : CacheManager) (userId accessToken : String) :
    CacheManager :=
  match mapGet cm.tokenData userId with
  | some existing =>
      { cm with tokenData :=
          mapSet cm.tokenData userId ({ existing with accessToken := accessToken }) }
  | none =>
      let fresh : TokenData :=
        { accessToken := accessToken, refreshToken := none,
          expiresAt := none, tokenType := none }
      { cm with tokenData := mapSet cm.tokenData userId fresh }

/-- `CacheManager.getAccessToken`: `tokenData?.accessToken`. -/
def getAccessToken (cm : CacheManager) (userId : String) : Option String :=
  (mapGet cm.tokenData userId).map TokenData.accessToken

/-- `CacheManager.getTokenData`. -/
def getTokenData (cm : CacheManager) (userId : String) : Option TokenData :=
  mapGet cm.tokenData userId

/-- `CacheManager.isTokenExpired`: `!tokenData?.expiresAt` is truthy when
the record or its `expiresAt` is missing, or `expiresAt` is the number `0`;
then the record counts as not expired. Otherwise `Date.now() >= expiresAt`. -/
def isTokenExpired (cm : CacheManager) (userId : String) (now : Int) : Bool :=
  match mapGet cm.tokenData userId with
  | none => false
  | some td =>
    match td.expiresAt with
    | none => false
    | some e => if e = 0 then false else decide (now ≥ e)

/-- `CacheManager.cacheEvents`: store the events and stamp `Date.now()`. -/
def cacheEvents (cm : CacheManager) (userId : String)
    (events : List CalendarEvent) (now : Int) : CacheManager :=
  { cm with
    cachedEvents := mapSet cm.cachedEvents userId events
    cacheTimestamps := mapSet cm.cacheTimestamps userId now }

/-- `CacheManager.getCachedEvents`. -/
def getCachedEvents (cm : CacheManager) (userId : String) :
    Option (List CalendarEvent) :=
  mapGet cm.cachedEvents userId

/-- `CacheManager.getCacheTimestamp`. -/
def getCacheTimestamp (cm : CacheManager) (userId : String) : Option Int :=
  mapGet cm.cacheTimestamps userId

/-- `CacheManager.isCacheValid`: `!timestamp` is truthy when the stamp is
missing or `0`; otherwise `(Date.now() - timestamp) < maxAgeMs`.
The source default for `maxAgeMs` is `300000`. -/
def isCacheValid (cm : CacheManager) (userId : String) (now maxAgeMs : Int) :
    Bool :=
  match mapGet cm.cacheTimestamps userId with
  | none => false
  | some t => if t = 0 then false else decide (now - t < maxAgeMs)

/-- `CacheManager.getAllUsers`: the profile map keys. -/
def getAllUsers (cm : CacheManager) : List String :=
  mapKeys cm.userProfiles

/-- `CacheManager.clearUserData`. -/
def clearUserData (cm : CacheManager) (userId : String) : CacheManager :=
  { tokenData := cm.tokenData.filter (fun p => p.1 ≠ userId)
    userProfiles := cm.userProfiles.filter (fun p => p.1 ≠ userId)
    cachedEvents := cm.cachedEvents.filter (fun p => p.1 ≠ userId)
    cacheTimestamps := cm.cacheTimestamps.filter (fun p => p.1 ≠ userId) }

/-- JSON body of a token-endpoint response, as read by
`AuthController.refreshToken`: each field may be absent. -/
structure RefreshBody where
  access_token : Option String
  refresh_token : Option String
  expires_in : Option Int
  token_type : Option String
deriving DecidableEq

/-- Outcome of the `fetch` to the token endpoint: a non-2xx response
(`!tokenResponse.ok`, carrying the error text) or a parsed JSON body. -/
inductive RefreshResponse where
  | httpError (errorText : String) : RefreshResponse
  | ok (body : RefreshBody) : RefreshResponse
deriving DecidableEq

/-- Result of one `AuthController` call: the returned
`string | null`, the resulting store state, and whether the token
endpoint was contacted. -/
structure AuthStep where
  result : Option String
  cm : CacheManager
  networkCalled : Bool
deriving DecidableEq

/-- `AuthController.refreshToken userId`, with `Date.now()` at the store
step as `now`, the `AZURE_CLIENT_ID` environment variable as `clientId`
and the token endpoint's answer as `response`:
* no record, or `!tokenData?.refreshToken` (absent or empty) → `null`;
* missing client id → the throw is caught by the method's own
  `try`/`catch` → `null`, nothing stored, no request made;
* non-2xx → `null`, nothing stored;
* body without a truthy `access_token` → `null`, nothing stored;
* otherwise store `{accessToken, refreshToken: new || old, expiresAt:
  expires_in ? now + expires_in*1000 : undefined, tokenType:
  token_type || 'Bearer'}` and return the new access token. -/
def refreshTokenRun (cm : CacheManager) (userId : String) (now : Int)
    (clientId : Option String) (response : RefreshResponse) : AuthStep :=
  match mapGet cm.tokenData userId with
  | none => ⟨none, cm, false⟩
  | some td =>
    match td.refreshToken with
    | none => ⟨none, cm, false⟩
    | some rt =>
      if rt = "" then ⟨none, cm, false⟩
      else if strTruthy clientId = false then ⟨none, cm, false⟩
      else
        match response with
        | .httpError _ => ⟨none, cm, true⟩
        | .ok body =>
          match body.access_token with
          | none => ⟨none, cm, true⟩
          | some a =>
            if a = "" then ⟨none, cm, true⟩
            else
              let newRefreshToken := jsOrStr body.refresh_token rt
              let newExpiresAt : Option Int :=
                match body.expires_in with
                | none => none
                | some e => if e = 0 then none else some (now + e * 1000)
              let newTokenType := jsOrStr body.token_type "Bearer"
              let newRecord : TokenData :=
                { accessToken := a, refreshToken := some newRefreshToken,
                  expiresAt := newExpiresAt, tokenType := some newTokenType }
              ⟨some a, storeTokenData cm userId newRecord, true⟩

/-- `AuthController.getValidAccessToken userId`: if
`cacheManager.isTokenExpired(userId)` then attempt the refresh, else
return `cacheManager.getAccessToken(userId) || null` (no request, no
store mutation). -/
def getValidAccessTokenRun (cm : CacheManager) (userId : String) (now : Int)
    (clientId : Option String) (response : RefreshResponse) : AuthStep :=
  if isTokenExpired cm userId now then
    refreshTokenRun cm userId now clientId response
  else
    match getAccessToken cm userId with
    | none => ⟨none, cm, false⟩
    | some a => if a = "" then ⟨none, cm, false⟩ else ⟨some a, cm, false⟩

/-- `getRandomDelay` of `index.ts`:
`(baseDelay - 10 + Math.random() * variation) * 1000` with
`baseDelay = 60` and `variation = 20`; `r` stands for the value of
`Math.random()`, which lies in `[0, 1)`. -/
def getRandomDelay (r : ℚ) : ℚ :=
  (60 - 10 + r * 20) * 1000

/-- The browser-side interval of `public/app.js`
(`CalendarApp.startRefreshCountdown`): `50000 + Math.random() * 20000`. -/
def clientRandomInterval (r : ℚ) : ℚ :=
  50000 + r * 20000

/-- Timeline of `scheduleNext` in `index.ts`. Each cycle is described by
its `(delay, duration)` pair: the jittered delay passed to `setTimeout`
and the time `refreshCalendarData` takes. `scheduleNext` is entered at
time `t`; it arms the timer, which fires at `t + delay`; the callback
awaits `refreshCalendarData`, finishing at `t + delay + duration`, and
only then calls `scheduleNext` again. The result lists, per cycle,
`(armTime, startTime, finishTime)`. -/
def cycleSpans : ℚ → List (ℚ × ℚ) → List (ℚ × ℚ × ℚ)
  | _, [] => []
  | t, (delay, duration) :: rest =>
      (t, t + delay, t + delay + duration) ::
        cycleSpans (t + delay + duration) rest

/-- One user's slot of the background cycle, acting on the store:
if a valid token was obtained and the event fetch succeeded, rewrite
that user's event-cache entry; otherwise leave the store as is. -/
def cycleStep (now : Int) (tokenOf : String → Option String)
    (fetchOf : String → Option (List CalendarEvent))
    (acc : CacheManager) (u : String) : CacheManager :=
  match tokenOf u with
  | none => acc
  | some _ =>
    match fetchOf u with
    | none => acc
    | some evs => cacheEvents acc u evs now

/-- Modelled from the spec: the multi-user background refresh cycle
(spec §4.5). The server that pairs `AuthController`/`CacheManager` with a
per-user fan-out is not among the source files — `index.ts` carries a
single-user scheduler and `public/app.js` only refreshes the selected
user — so the cycle body follows the spec's words: enumerate all user
ids from the profile store, per user ask the refresher for a valid
token (`tokenOf`), on success fetch today's events (`fetchOf`) and write
them to the event cache; a missing token or failed fetch only skips that
user. -/
def backgroundCycle (cm : CacheManager) (now : Int)
    (tokenOf : String → Option String)
    (fetchOf : String → Option (List CalendarEvent)) : CacheManager :=
  (getAllUsers cm).foldl (cycleStep now tokenOf fetchOf) cm

/-- The event-cache value a user ends the cycle with, as a function of
that user's own token and fetch outcomes alone. -/
def userOutcome (tokenOf : String → Option String)
    (fetchOf : String → Option (List CalendarEvent)) (u : String)
    (old : Option (List CalendarEvent)) : Option (List CalendarEvent) :=
  match tokenOf u with
  | none => old
  | some _ =>
    match fetchOf u with
    | none => old
    | some evs => some evs

/-! ### Map lemmas -/

theorem mapGet_mapSet_self {α : Type} (m : List (String × α)) (k : String)
    (v : α) : mapGet (mapSet m k v) k = some v := by
  induction m with
  | nil => simp [mapGet, mapSet]
  | cons p rest ih =>
    obtain ⟨k', w⟩ := p
    by_cases h : k' = k
    · simp [mapGet, mapSet, h]
    · simp [mapGet, mapSet, h, ih]

theorem mapGet_mapSet_ne {α : Type} (m : List (String × α)) {k k' : String}
    (v : α) (h : k' ≠ k) : mapGet (mapSet m k v) k' = mapGet m k' := by
  induction m with
  | nil => simp [mapGet, mapSet, h, Ne.symm h]
  | cons p rest ih =>
    obtain ⟨k₀, w⟩ := p
    by_cases h₀ : k₀ = k
    · subst h₀
      simp [mapGet, mapSet, h, Ne.symm h]
    · by_cases h₁ : k₀ = k'
      · simp [mapGet, mapSet, h₀, h₁, h, Ne.symm h]
      · simp [mapGet, mapSet, h₀, h₁, ih]

/-! ### C5: expiry query -/

/-- Store with a token record whose `expiresAt` is the number `0`. -/
def expiryZeroStore : CacheManager :=
  ⟨[("u", ⟨"A", none, some 0, none⟩)], [], [], []⟩

/-- C5, counterexample: a record with `expiresAt = 0` exists and
`now = 5 ≥ 0`, so the claim's reading (`now >= expiresAt`) demands
`isExpired = true`; the code's `!tokenData?.expiresAt` treats the
numeric `0` as absent and returns `false`. -/
theorem isTokenExpired_zero_counterexample :
    getTokenData expiryZeroStore "u" = some ⟨"A", none, some 0, none⟩ ∧
    (5 : Int) ≥ 0 ∧
    isTokenExpired expiryZeroStore "u" 5 = false := by
  refine ⟨by rfl, by decide, by rfl⟩

/-- C5, amended: `isExpired` is false when the store has no record for the
user, the record has no `expiresAt`, or `expiresAt` is the JS-falsy
number `0`; otherwise it is exactly `now ≥ expiresAt`. -/
theorem isTokenExpired_spec (cm : CacheManager) (u : String) (now : Int) :
    isTokenExpired cm u now = true ↔
      ∃ td e, mapGet cm.tokenData u = some td ∧ td.expiresAt = some e ∧
        e ≠ 0 ∧ now ≥ e := by
  cases htd : mapGet cm.tokenData u with
  | none => simp [isTokenExpired, htd]
  | some td =>
    cases he : td.expiresAt with
    | none => simp [isTokenExpired, htd, he]
    | some e =>
      by_cases h0 : e = 0
      · simp [isTokenExpired, htd, he, h0]
      · simp [isTokenExpired, htd, he, h0]

/-! ### C6: event-cache freshness -/

/-- Event cache populated by a `put` whose `Date.now()` was `0`. -/
def freshZeroStore : CacheManager :=
  cacheEvents ⟨[], [], [], []⟩ "u" [] 0

/-- C6, counterexample: after `put` stamped `fetchedAt = 0`, at `now = 5`
with the default `maxAgeMs = 300000` the claim's reading
(`now - fetchedAt < maxAgeMs`, i.e. `5 < 300000`) demands `true`; the
code's `!timestamp` treats the numeric stamp `0` as missing and returns
`false`. -/
theorem isCacheValid_zero_counterexample :
    getCacheTimestamp freshZeroStore "u" = some 0 ∧
    (5 : Int) - 0 < 300000 ∧
    isCacheValid freshZeroStore "u" 5 300000 = false := by
  refine ⟨by rfl, by decide, by rfl⟩

/-- C6, amended: `isFresh` is false when no fetch timestamp exists or the
timestamp is the JS-falsy number `0`, and otherwise is exactly
`now - fetchedAt < maxAgeMs`; in particular, immediately after
`put(userId, events)` stamped at a nonzero instant it is true when
`maxAgeMs > 0`, and later it equals `now - fetchedAt < maxAgeMs`, hence
is false once `now - fetchedAt ≥ maxAgeMs`. -/
theorem isCacheValid_spec (cm : CacheManager) (u : String)
    (evs : List CalendarEvent) (now putTime maxAgeMs : Int)
    (hput : putTime ≠ 0) (hpos : 0 < maxAgeMs) :
    (isCacheValid cm u now maxAgeMs = true ↔
       ∃ t, mapGet cm.cacheTimestamps u = some t ∧ t ≠ 0 ∧
         now - t < maxAgeMs) ∧
    isCacheValid (cacheEvents cm u evs putTime) u putTime maxAgeMs = true ∧
    isCacheValid (cacheEvents cm u evs putTime) u now maxAgeMs =
      decide (now - putTime < maxAgeMs) := by
  refine ⟨?_, ?_, ?_⟩
  · cases ht : mapGet cm.cacheTimestamps u with
    | none => simp [isCacheValid, ht]
    | some t =>
      by_cases h0 : t = 0
      · simp [isCacheValid, ht, h0]
      · simp [isCacheValid, ht, h0]
  · have hget : mapGet (cacheEvents cm u evs putTime).cacheTimestamps u
        = some putTime := mapGet_mapSet_self _ _ _
    simp [isCacheValid, hget, hput]
    omega
  · have hget : mapGet (cacheEvents cm u evs putTime).cacheTimestamps u
        = some putTime := mapGet_mapSet_self _ _ _
    simp [isCacheValid, hget, hput]

/-- C6, witness: a concrete store, `put` at time `1000`, checked at
`now = 400000` against the default max age (stale by then). -/
theorem isCacheValid_spec_witness :
    (1000 : Int) ≠ 0 ∧ (0 : Int) < 300000 ∧
    ((isCacheValid ⟨[], [], [], []⟩ "u" 400000 300000 = true ↔
       ∃ t, mapGet (⟨[], [], [], []⟩ : CacheManager).cacheTimestamps "u"
           = some t ∧ t ≠ 0 ∧ (400000 : Int) - t < 300000) ∧
     isCacheValid (cacheEvents ⟨[], [], [], []⟩ "u" [] 1000) "u" 1000 300000
       = true ∧
     isCacheValid (cacheEvents ⟨[], [], [], []⟩ "u" [] 1000) "u" 400000 300000
       = decide ((400000 : Int) - 1000 < 300000)) :=
  ⟨by decide, by decide,
   isCacheValid_spec ⟨[], [], [], []⟩ "u" [] 400000 1000 300000
     (by decide) (by decide)⟩

/-! ### C10: partial overwrite by storeAccessToken -/

/-- C10: for a user with an existing record, `storeAccessToken` spreads
the old record and overwrites only `accessToken`; `refreshToken`,
`expiresAt` and `tokenType` are carried over unchanged, and the expiry
status at any instant is exactly what it was before the store — in
particular a stale `expiresAt` keeps the record expired right after the
new access token is stored. -/
theorem storeAccessToken_frame (cm : CacheManager) (u a : String)
    (td : TokenData) (now : Int) (h : mapGet cm.tokenData u = some td) :
    getTokenData (storeAccessToken cm u a) u =
      some ⟨a, td.refreshToken, td.expiresAt, td.tokenType⟩ ∧
    isTokenExpired (storeAccessToken cm u a) u now =
      isTokenExpired cm u now := by
  obtain ⟨at0, rt0, ea0, tt0⟩ := td
  unfold storeAccessToken getTokenData isTokenExpired
  rw [h]
  simp only [mapGet_mapSet_self, h]
  exact ⟨trivial, trivial⟩

/-- C10, witness: a record with a stale expiry stays expired after a new
access token is stored over it. -/
theorem storeAccessToken_frame_witness :
    mapGet (⟨[("u", ⟨"A1", some "R1", some 40, some "Bearer"⟩)], [], [],
      []⟩ : CacheManager).tokenData "u"
        = some ⟨"A1", some "R1", some 40, some "Bearer"⟩ ∧
    (getTokenData
        (storeAccessToken
          ⟨[("u", ⟨"A1", some "R1", some 40, some "Bearer"⟩)], [], [], []⟩
          "u" "A2") "u"
      = some ⟨"A2", some "R1", some 40, some "Bearer"⟩ ∧
     isTokenExpired
        (storeAccessToken
          ⟨[("u", ⟨"A1", some "R1", some 40, some "Bearer"⟩)], [], [], []⟩
          "u" "A2") "u" 100
      = isTokenExpired
          ⟨[("u", ⟨"A1", some "R1", some 40, some "Bearer"⟩)], [], [], []⟩
          "u" 100) :=
  ⟨by rfl,
   storeAccessToken_frame _ "u" "A2" ⟨"A1", some "R1", some 40, some "Bearer"⟩
     100 (by rfl)⟩

/-! ### C1: fast path of getValidAccessToken -/

/-- Store with an unexpired record whose `accessToken` is the empty
string. -/
def emptyAccessStore : CacheManager :=
  ⟨[("u", ⟨"", none, none, none⟩)], [], [], []⟩

/-- C1, counterexample: the record exists and `isExpired` is false, so
the claim demands that `getValidAccessToken` return the record's
`accessToken` (here `""`); the code's `getAccessToken(userId) || null`
treats the empty string as falsy and returns `null`. -/
theorem getValidAccessToken_empty_counterexample :
    getTokenData emptyAccessStore "u" = some ⟨"", none, none, none⟩ ∧
    isTokenExpired emptyAccessStore "u" 0 = false ∧
    (getValidAccessTokenRun emptyAccessStore "u" 0 (some "cid")
        (.httpError "")).result = none := by
  refine ⟨by rfl, by rfl, by rfl⟩

/-- C1, amended: for every user whose token record exists and for whom
`isExpired` is false, `getValidAccessToken` performs no network call and
leaves the token store untouched, and returns the record's `accessToken`
when that string is non-empty; when the stored `accessToken` is the
JS-falsy empty string it returns absent instead. -/
theorem getValidAccessToken_fast_path (cm : CacheManager) (u : String)
    (now : Int) (clientId : Option String) (response : RefreshResponse)
    (td : TokenData) (hget : mapGet cm.tokenData u = some td)
    (hexp : isTokenExpired cm u now = false) :
    getValidAccessTokenRun cm u now clientId response =
      ⟨if td.accessToken = "" then none else some td.accessToken, cm,
        false⟩ := by
  unfold getValidAccessTokenRun getAccessToken
  rw [hexp, hget]
  simp only [Bool.false_eq_true, if_false, Option.map_some']
  by_cases ha : td.accessToken = "" <;> simp [ha]

/-- C1, witness: an unexpired record with a non-empty token is returned
as-is, with no network call and the store unchanged. -/
theorem getValidAccessToken_fast_path_witness :
    mapGet (⟨[("u", ⟨"A1", some "R1", some 9000, some "Bearer"⟩)], [], [],
        []⟩ : CacheManager).tokenData "u"
      = some ⟨"A1", some "R1", some 9000, some "Bearer"⟩ ∧
    isTokenExpired
        ⟨[("u", ⟨"A1", some "R1", some 9000, some "Bearer"⟩)], [], [], []⟩
        "u" 5 = false ∧
    getValidAccessTokenRun
        ⟨[("u", ⟨"A1", some "R1", some 9000, some "Bearer"⟩)], [], [], []⟩
        "u" 5 (some "cid") (.httpError "boom")
      = ⟨if ("A1" : String) = "" then none else some "A1",
         ⟨[("u", ⟨"A1", some "R1", some 9000, some "Bearer"⟩)], [], [], []⟩,
         false⟩ :=
  ⟨by rfl, by rfl,
   getValidAccessToken_fast_path
     ⟨[("u", ⟨"A1", some "R1", some 9000, some "Bearer"⟩)], [], [], []⟩
     "u" 5 (some "cid") (.httpError "boom")
     ⟨"A1", some "R1", some 9000, some "Bearer"⟩ (by rfl) (by rfl)⟩

/-! ### C2: failed refresh leaves the record in place -/

/-- A token-endpoint outcome the code treats as a failed refresh: a
non-2xx response, or a 2xx body without a truthy `access_token`
(absent or empty — the code's `if (!newAccessToken)`). -/
def refreshFailed : RefreshResponse → Bool
  | .httpError _ => true
  | .ok body => !(strTruthy body.access_token)

/-- C2: for a user whose record is expired and carries a refresh token,
a failed refresh exchange (non-2xx or malformed body) makes
`getValidAccessToken` return absent while the store is left exactly as
it was: the record is still present with all fields intact and is still
expired. This holds for any `AZURE_CLIENT_ID` environment value — when
it is unset the throw is caught before any request is made, with the
same observable outcome. -/
theorem getValidAccessToken_refresh_failure (cm : CacheManager)
    (u : String) (now : Int) (clientId : Option String)
    (response : RefreshResponse) (td : TokenData) (rt : String)
    (hget : mapGet cm.tokenData u = some td)
    (hexp : isTokenExpired cm u now = true)
    (hrt : td.refreshToken = some rt)
    (hfail : refreshFailed response = true) :
    (getValidAccessTokenRun cm u now clientId response).result = none ∧
    (getValidAccessTokenRun cm u now clientId response).cm = cm ∧
    getTokenData (getValidAccessTokenRun cm u now clientId response).cm u
      = some td ∧
    isTokenExpired (getValidAccessTokenRun cm u now clientId response).cm
      u now = true := by
  have hrun : getValidAccessTokenRun cm u now clientId response =
      refreshTokenRun cm u now clientId response := by
    unfold getValidAccessTokenRun
    rw [hexp]
    simp
  obtain ⟨b, hstep⟩ :
      ∃ b, refreshTokenRun cm u now clientId response = ⟨none, cm, b⟩ := by
    unfold refreshTokenRun
    simp only [hget, hrt]
    by_cases hrt0 : rt = ""
    · exact ⟨false, by simp [hrt0]⟩
    · by_cases hcid : strTruthy clientId = false
      · exact ⟨false, by simp [hrt0, hcid]⟩
      · cases response with
        | httpError e => exact ⟨true, by simp [hrt0, hcid]⟩
        | ok body =>
          cases hat : body.access_token with
          | none => exact ⟨true, by simp [hrt0, hcid, hat]⟩
          | some a =>
            have ha : a = "" := by
              simp only [refreshFailed, strTruthy, hat] at hfail
              simpa using hfail
            exact ⟨true, by simp [hrt0, hcid, hat, ha]⟩
  rw [hrun, hstep]
  exact ⟨rfl, rfl, by unfold getTokenData; rw [hget], by rw [hexp]⟩

/-- C2, witness: an expired record with a refresh token survives a
non-2xx refresh answer untouched, and the call yields absent. -/
theorem getValidAccessToken_refresh_failure_witness :
    mapGet (⟨[("u", ⟨"A1", some "R1", some 40, some "Bearer"⟩)], [], [],
        []⟩ : CacheManager).tokenData "u"
      = some ⟨"A1", some "R1", some 40, some "Bearer"⟩ ∧
    isTokenExpired
        ⟨[("u", ⟨"A1", some "R1", some 40, some "Bearer"⟩)], [], [], []⟩
        "u" 100 = true ∧
    refreshFailed (.httpError "invalid_grant") = true ∧
    ((getValidAccessTokenRun
        ⟨[("u", ⟨"A1", some "R1", some 40, some "Bearer"⟩)], [], [], []⟩
        "u" 100 (some "cid") (.httpError "invalid_grant")).result = none ∧
     (getValidAccessTokenRun
        ⟨[("u", ⟨"A1", some "R1", some 40, some "Bearer"⟩)], [], [], []⟩
        "u" 100 (some "cid") (.httpError "invalid_grant")).cm
       = ⟨[("u", ⟨"A1", some "R1", some 40, some "Bearer"⟩)], [], [], []⟩ ∧
     getTokenData (getValidAccessTokenRun
        ⟨[("u", ⟨"A1", some "R1", some 40, some "Bearer"⟩)], [], [], []⟩
        "u" 100 (some "cid") (.httpError "invalid_grant")).cm "u"
       = some ⟨"A1", some "R1", some 40, some "Bearer"⟩ ∧
     isTokenExpired (getValidAccessTokenRun
        ⟨[("u", ⟨"A1", some "R1", some 40, some "Bearer"⟩)], [], [], []⟩
        "u" 100 (some "cid") (.httpError "invalid_grant")).cm "u" 100
       = true) :=
  ⟨by rfl, by rfl, by rfl,
   getValidAccessToken_refresh_failure
     ⟨[("u", ⟨"A1", some "R1", some 40, some "Bearer"⟩)], [], [], []⟩
     "u" 100 (some "cid") (.httpError "invalid_grant")
     ⟨"A1", some "R1", some 40, some "Bearer"⟩ "R1"
     (by rfl) (by rfl) (by rfl) (by rfl)⟩

/-! ### C7: expired record without a refresh token -/

/-- C7: for a user whose token record is expired and carries no refresh
token, `getValidAccessToken` returns absent, contacts no network, and
the store — the record included — is left exactly as it was. -/
theorem getValidAccessToken_no_refresh_token (cm : CacheManager)
    (u : String) (now : Int) (clientId : Option String)
    (response : RefreshResponse) (td : TokenData)
    (hget : mapGet cm.tokenData u = some td)
    (hexp : isTokenExpired cm u now = true)
    (hrt : td.refreshToken = none) :
    getValidAccessTokenRun cm u now clientId response =
      ⟨none, cm, false⟩ := by
  unfold getValidAccessTokenRun
  rw [hexp]
  simp only [if_true]
  unfold refreshTokenRun
  simp only [hget, hrt]

/-- C7, witness: an expired record with `refreshToken` absent yields
absent with the store untouched and no request sent. -/
theorem getValidAccessToken_no_refresh_token_witness :
    mapGet (⟨[("u", ⟨"A1", none, some 40, some "Bearer"⟩)], [], [],
        []⟩ : CacheManager).tokenData "u"
      = some ⟨"A1", none, some 40, some "Bearer"⟩ ∧
    isTokenExpired
        ⟨[("u", ⟨"A1", none, some 40, some "Bearer"⟩)], [], [], []⟩
        "u" 100 = true ∧
    getValidAccessTokenRun
        ⟨[("u", ⟨"A1", none, some 40, some "Bearer"⟩)], [], [], []⟩
        "u" 100 (some "cid") (.ok ⟨some "A2", none, some 3600, none⟩)
      = ⟨none, ⟨[("u", ⟨"A1", none, some 40, some "Bearer"⟩)], [], [], []⟩,
         false⟩ :=
  ⟨by rfl, by rfl,
   getValidAccessToken_no_refresh_token
     ⟨[("u", ⟨"A1", none, some 40, some "Bearer"⟩)], [], [], []⟩
     "u" 100 (some "cid") (.ok ⟨some "A2", none, some 3600, none⟩)
     ⟨"A1", none, some 40, some "Bearer"⟩ (by rfl) (by rfl) (by rfl)⟩

/-! ### C3: successful refresh -/

/-- Expired record for the C3 scenario: `accessToken "A1"`, refresh
token `"R1"`, long past its expiry. -/
def staleStore : CacheManager :=
  ⟨[("u", ⟨"A1", some "R1", some 1, some "Bearer"⟩)], [], [], []⟩

/-- C3, counterexample: the refresh answer carries `access_token "A2"`
and `expires_in 0`. The claim demands the upsert store
`expiresAt = now + 0*1000 = some 5000`; the code's
`expiresIn ? Date.now() + expiresIn*1000 : undefined` treats the numeric
`0` as absent and stores no `expiresAt` at all. -/
theorem refresh_success_zero_counterexample :
    isTokenExpired staleStore "u" 5000 = true ∧
    (getValidAccessTokenRun staleStore "u" 5000 (some "cid")
        (.ok ⟨some "A2", none, some 0, none⟩)).result = some "A2" ∧
    (getTokenData (getValidAccessTokenRun staleStore "u" 5000 (some "cid")
        (.ok ⟨some "A2", none, some 0, none⟩)).cm "u").map
      TokenData.expiresAt = some none := by
  refine ⟨by rfl, by rfl, by rfl⟩

/-- C3, amended: for every user with an expired token and a non-empty
refresh token, with the client id configured, a successful refresh whose
response carries a non-empty `access_token` and a positive `expires_in`
upserts the token store with the new `accessToken`,
`expiresAt = now + expiresIn*1000`, the old `refreshToken` carried over
when the response omits a new one (formally: the stored value is
`refresh_token || old`), and `tokenType = token_type || 'Bearer'`;
it returns the new `accessToken`, and `isExpired` is false immediately
afterwards. (JS truthiness forces the non-empty and positive provisos:
empty strings and the number `0` take the fallback branches.) -/
theorem refresh_success_upsert (cm : CacheManager) (u : String)
    (now : Int) (clientId : Option String) (body : RefreshBody)
    (td : TokenData) (rt a : String) (e : Int)
    (hget : mapGet cm.tokenData u = some td)
    (hexp : isTokenExpired cm u now = true)
    (hrt : td.refreshToken = some rt) (hrt0 : rt ≠ "")
    (hcid : strTruthy clientId = true)
    (hat : body.access_token = some a) (ha0 : a ≠ "")
    (hei : body.expires_in = some e) (hepos : 0 < e) :
    getValidAccessTokenRun cm u now clientId (.ok body) =
      ⟨some a,
       storeTokenData cm u
         ⟨a, some (jsOrStr body.refresh_token rt), some (now + e * 1000),
          some (jsOrStr body.token_type "Bearer")⟩,
       true⟩ ∧
    getTokenData (getValidAccessTokenRun cm u now clientId (.ok body)).cm u
      = some ⟨a, some (jsOrStr body.refresh_token rt),
          some (now + e * 1000), some (jsOrStr body.token_type "Bearer")⟩ ∧
    (body.refresh_token = none →
      (getTokenData (getValidAccessTokenRun cm u now clientId
          (.ok body)).cm u).map TokenData.refreshToken
        = some (some rt)) ∧
    isTokenExpired (getValidAccessTokenRun cm u now clientId (.ok body)).cm
      u now = false := by
  have he0 : e ≠ 0 := by omega
  have hrun : getValidAccessTokenRun cm u now clientId (.ok body) =
      ⟨some a,
       storeTokenData cm u
         ⟨a, some (jsOrStr body.refresh_token rt), some (now + e * 1000),
          some (jsOrStr body.token_type "Bearer")⟩,
       true⟩ := by
    unfold getValidAccessTokenRun
    rw [hexp]
    simp only [if_true]
    unfold refreshTokenRun
    simp only [hget, hrt, hat, hei]
    rw [hcid]
    simp [hrt0, ha0, he0]
  have hrec : getTokenData (getValidAccessTokenRun cm u now clientId
      (.ok body)).cm u
      = some ⟨a, some (jsOrStr body.refresh_token rt),
          some (now + e * 1000), some (jsOrStr body.token_type "Bearer")⟩ := by
    rw [hrun]
    unfold getTokenData storeTokenData
    exact mapGet_mapSet_self _ _ _
  refine ⟨hrun, hrec, ?_, ?_⟩
  · intro hnone
    rw [hrec]
    simp [jsOrStr, hnone]
  · unfold isTokenExpired
    rw [show (getValidAccessTokenRun cm u now clientId (.ok body)).cm.tokenData
        = (storeTokenData cm u
            ⟨a, some (jsOrStr body.refresh_token rt), some (now + e * 1000),
             some (jsOrStr body.token_type "Bearer")⟩).tokenData from
        congrArg (fun s => s.tokenData) (congrArg AuthStep.cm hrun)]
    unfold storeTokenData
    rw [mapGet_mapSet_self]
    by_cases hz : now + e * 1000 = 0
    · simp [hz]
    · have : ¬ now ≥ now + e * 1000 := by nlinarith
      simp [hz, this]

/-- C3, witness: the spec's scenario — expired record `"A1"`/`"R1"`,
refresh answer `access_token "A2"`, `expires_in 3600`, no new refresh
token; the store ends with `"A2"`, `"R1"` carried over,
`expiresAt = 5000 + 3600*1000`, and the record is no longer expired. -/
theorem refresh_success_upsert_witness :
    mapGet staleStore.tokenData "u"
      = some ⟨"A1", some "R1", some 1, some "Bearer"⟩ ∧
    isTokenExpired staleStore "u" 5000 = true ∧
    ("R1" : String) ≠ "" ∧ strTruthy (some "cid") = true ∧
    ("A2" : String) ≠ "" ∧ (0 : Int) < 3600 ∧
    (getValidAccessTokenRun staleStore "u" 5000 (some "cid")
        (.ok ⟨some "A2", none, some 3600, none⟩) =
      ⟨some "A2",
       storeTokenData staleStore "u"
         ⟨"A2", some (jsOrStr none "R1"), some (5000 + 3600 * 1000),
          some (jsOrStr none "Bearer")⟩,
       true⟩ ∧
     getTokenData (getValidAccessTokenRun staleStore "u" 5000 (some "cid")
        (.ok ⟨some "A2", none, some 3600, none⟩)).cm "u"
      = some ⟨"A2", some (jsOrStr none "R1"), some (5000 + 3600 * 1000),
          some (jsOrStr none "Bearer")⟩ ∧
     ((⟨some "A2", none, some 3600, none⟩ : RefreshBody).refresh_token = none →
      (getTokenData (getValidAccessTokenRun staleStore "u" 5000 (some "cid")
          (.ok ⟨some "A2", none, some 3600, none⟩)).cm "u").map
        TokenData.refreshToken = some (some "R1")) ∧
     isTokenExpired (getValidAccessTokenRun staleStore "u" 5000 (some "cid")
        (.ok ⟨some "A2", none, some 3600, none⟩)).cm "u" 5000 = false) :=
  ⟨by rfl, by rfl, by decide, by rfl, by decide, by decide,
   refresh_success_upsert staleStore "u" 5000 (some "cid")
     ⟨some "A2", none, some 3600, none⟩
     ⟨"A1", some "R1", some 1, some "Bearer"⟩ "R1" "A2" 3600
     (by rfl) (by rfl) (by rfl) (by decide) (by rfl) (by rfl) (by decide)
     (by rfl) (by decide)⟩

/-! ### C4: per-user independence of the background cycle -/

theorem cycleStep_get_self (now : Int) (tokenOf : String → Option String)
    (fetchOf : String → Option (List CalendarEvent)) (acc : CacheManager)
    (u : String) :
    mapGet (cycleStep now tokenOf fetchOf acc u).cachedEvents u =
      userOutcome tokenOf fetchOf u (mapGet acc.cachedEvents u) := by
  unfold cycleStep userOutcome
  cases tokenOf u with
  | none => rfl
  | some t =>
    cases fetchOf u with
    | none => rfl
    | some evs =>
      unfold cacheEvents
      exact mapGet_mapSet_self _ _ _

theorem cycleStep_get_ne (now : Int) (tokenOf : String → Option String)
    (fetchOf : String → Option (List CalendarEvent)) (acc : CacheManager)
    {u v : String} (h : v ≠ u) :
    mapGet (cycleStep now tokenOf fetchOf acc u).cachedEvents v =
      mapGet acc.cachedEvents v := by
  unfold cycleStep
  cases tokenOf u with
  | none => rfl
  | some t =>
    cases fetchOf u with
    | none => rfl
    | some evs =>
      unfold cacheEvents
      exact mapGet_mapSet_ne _ _ h

theorem cycleFold_get_notMem (now : Int) (tokenOf : String → Option String)
    (fetchOf : String → Option (List CalendarEvent)) (users : List String)
    (acc : CacheManager) (u : String) (h : u ∉ users) :
    mapGet ((users.foldl (cycleStep now tokenOf fetchOf) acc).cachedEvents)
      u = mapGet acc.cachedEvents u := by
  induction users generalizing acc with
  | nil => rfl
  | cons v rest ih =>
    have hne : u ≠ v := fun hh => h (hh ▸ List.mem_cons_self v rest)
    have hnotin : u ∉ rest := fun hh => h (List.mem_cons_of_mem v hh)
    rw [List.foldl_cons, ih _ hnotin, cycleStep_get_ne _ _ _ _ hne]

theorem cycleFold_get_mem (now : Int) (tokenOf : String → Option String)
    (fetchOf : String → Option (List CalendarEvent)) (users : List String)
    (acc : CacheManager) (u : String) (hnd : users.Nodup)
    (hu : u ∈ users) :
    mapGet ((users.foldl (cycleStep now tokenOf fetchOf) acc).cachedEvents)
      u = userOutcome tokenOf fetchOf u (mapGet acc.cachedEvents u) := by
  induction users generalizing acc with
  | nil => cases hu
  | cons v rest ih =>
    have hvrest : v ∉ rest := (List.nodup_cons.mp hnd).1
    have hndrest : rest.Nodup := (List.nodup_cons.mp hnd).2
    rw [List.foldl_cons]
    rcases List.mem_cons.mp hu with hv | hrest
    · subst hv
      rw [cycleFold_get_notMem _ _ _ _ _ _ hvrest, cycleStep_get_self]
    · have hne : u ≠ v := fun hh => hvrest (hh ▸ hrest)
      rw [ih _ hndrest hrest, cycleStep_get_ne _ _ _ _ hne]

/-- C4: in one background cycle every user id in the profile store is
processed exactly once (`count = 1` among the enumerated ids), and each
user's final event-cache entry is a function of that user's own token
and fetch outcomes alone: on success it is rewritten to the fetched
events, and on a missing token or failed fetch it keeps its prior value
— so one user's failure never blocks another user's update. The profile
map's keys are pairwise distinct (`Map` keys), taken here as the
hypothesis `hnd`. -/
theorem backgroundCycle_independent (cm : CacheManager) (now : Int)
    (tokenOf : String → Option String)
    (fetchOf : String → Option (List CalendarEvent)) (u : String)
    (hnd : (getAllUsers cm).Nodup) (hu : u ∈ getAllUsers cm) :
    (getAllUsers cm).count u = 1 ∧
    getCachedEvents (backgroundCycle cm now tokenOf fetchOf) u =
      userOutcome tokenOf fetchOf u (getCachedEvents cm u) := by
  refine ⟨List.count_eq_one_of_mem hnd hu, ?_⟩
  unfold backgroundCycle getCachedEvents
  exact cycleFold_get_mem now tokenOf fetchOf (getAllUsers cm) cm u hnd hu

/-- Profile store with the two users of the C4 witness scenario. -/
def twoUserStore : CacheManager :=
  ⟨[], [("a", ⟨"a", "Alice", "alice@example.com", none⟩),
        ("b", ⟨"b", "Bob", "bob@example.com", none⟩)],
   [("b", [])], []⟩

/-- Token outcomes of the C4 witness cycle: user `a` has no usable
token, user `b` gets one. -/
def witnessTokenOf : String → Option String :=
  fun u => if u = "b" then some "T" else none

/-- Fetch outcomes of the C4 witness cycle: user `b`'s fetch returns one
event. -/
def witnessFetchOf : String → Option (List CalendarEvent) :=
  fun u =>
    if u = "b" then
      some [⟨"e1", "Standup", ⟨"2026-10-12T09:00:00", "UTC"⟩,
        ⟨"2026-10-12T09:15:00", "UTC"⟩, none, none, none, none⟩]
    else none

/-- C4, witness: with user `a` failing (no token) and user `b`
succeeding, `b`'s event-cache entry is still rewritten in the same
cycle, and `b` is enumerated exactly once. -/
theorem backgroundCycle_independent_witness :
    (getAllUsers twoUserStore).Nodup ∧
    "b" ∈ getAllUsers twoUserStore ∧
    ((getAllUsers twoUserStore).count "b" = 1 ∧
     getCachedEvents (backgroundCycle twoUserStore 0 witnessTokenOf
         witnessFetchOf) "b"
       = userOutcome witnessTokenOf witnessFetchOf "b"
           (getCachedEvents twoUserStore "b")) :=
  ⟨by decide, by decide,
   backgroundCycle_independent twoUserStore 0 witnessTokenOf witnessFetchOf
     "b" (by decide) (by decide)⟩

/-! ### C8: jitter bounds -/

/-- C8: for every value `r` in `[0, 1)` drawn from the random source,
both delay computations — `getRandomDelay` of the server scheduler in
`index.ts` and the browser countdown interval of `public/app.js` — land
inside `[50000, 70000]` milliseconds inclusive. -/
theorem jitter_within_bounds (r : ℚ) (h0 : 0 ≤ r) (h1 : r < 1) :
    50000 ≤ getRandomDelay r ∧ getRandomDelay r ≤ 70000 ∧
    50000 ≤ clientRandomInterval r ∧ clientRandomInterval r ≤ 70000 := by
  unfold getRandomDelay clientRandomInterval
  refine ⟨by nlinarith, by nlinarith, by nlinarith, by nlinarith⟩

/-- C8, witness: the midpoint draw `r = 1/2` gives delays of 60000 ms,
inside the bounds. -/
theorem jitter_within_bounds_witness :
    (0 : ℚ) ≤ 1/2 ∧ (1/2 : ℚ) < 1 ∧
    (50000 ≤ getRandomDelay (1/2) ∧ getRandomDelay (1/2) ≤ 70000 ∧
     50000 ≤ clientRandomInterval (1/2) ∧
     clientRandomInterval (1/2) ≤ 70000) :=
  ⟨by norm_num, by norm_num,
   jitter_within_bounds (1/2) (by norm_num) (by norm_num)⟩

/-! ### C9: the self-rescheduling timer never overlaps itself -/

theorem cycleSpans_bounds (l : List (ℚ × ℚ)) (t : ℚ)
    (h : ∀ p ∈ l, 0 ≤ p.1 ∧ 0 ≤ p.2) :
    ∀ s ∈ cycleSpans t l, t ≤ s.1 ∧ s.1 ≤ s.2.1 ∧ s.2.1 ≤ s.2.2 := by
  induction l generalizing t with
  | nil =>
    intro s hs
    simp [cycleSpans] at hs
  | cons p rest ih =>
    obtain ⟨d, dur⟩ := p
    have hd : 0 ≤ d := (h (d, dur) (List.mem_cons_self _ _)).1
    have hdur : 0 ≤ dur := (h (d, dur) (List.mem_cons_self _ _)).2
    intro s hs
    rw [show cycleSpans t ((d, dur) :: rest) =
        (t, t + d, t + d + dur) :: cycleSpans (t + d + dur) rest from rfl]
      at hs
    rcases List.mem_cons.mp hs with hhead | htail
    · subst hhead
      refine ⟨le_refl t, ?_, ?_⟩
      · show t ≤ t + d
        linarith
      · show t + d ≤ t + d + dur
        linarith
    · have hrest : ∀ p ∈ rest, 0 ≤ p.1 ∧ 0 ≤ p.2 :=
        fun q hq => h q (List.mem_cons_of_mem _ hq)
      have := ih (t + d + dur) hrest s htail
      exact ⟨by linarith [this.1], this.2.1, this.2.2⟩

/-- C9: the `scheduleNext` timeline is self-rescheduling, not
fixed-period. With nonnegative jitter delays and cycle durations, every
consecutive pair of cycles satisfies: the next cycle's timer is armed at
exactly the instant the current cycle's refresh work finishes
(`finish a = arm b`, the structural content of `scheduleNext` being
called only after `await refreshCalendarData()` returns), and over the
whole timeline any two distinct cycles are disjoint — each earlier
cycle finishes no later than any later cycle starts — so no two cycles
ever run concurrently. -/
theorem scheduler_cycles_never_overlap (t : ℚ) (l : List (ℚ × ℚ))
    (h : ∀ p ∈ l, 0 ≤ p.1 ∧ 0 ≤ p.2) :
    List.Chain' (fun a b => a.2.2 = b.1) (cycleSpans t l) ∧
    List.Pairwise (fun a b => a.2.2 ≤ b.2.1) (cycleSpans t l) := by
  induction l generalizing t with
  | nil => exact ⟨List.chain'_nil, List.Pairwise.nil⟩
  | cons p rest ih =>
    obtain ⟨d, dur⟩ := p
    have hrest : ∀ p ∈ rest, 0 ≤ p.1 ∧ 0 ≤ p.2 :=
      fun q hq => h q (List.mem_cons_of_mem _ hq)
    have ihrest := ih (t + d + dur) hrest
    rw [show cycleSpans t ((d, dur) :: rest) =
        (t, t + d, t + d + dur) :: cycleSpans (t + d + dur) rest from rfl]
    constructor
    · rw [List.chain'_cons']
      refine ⟨?_, ihrest.1⟩
      cases rest with
      | nil =>
        intro y hy
        simp [cycleSpans] at hy
      | cons q qrest =>
        obtain ⟨qd, qdur⟩ := q
        intro y hy
        have hy' : (t + d + dur, t + d + dur + qd, t + d + dur + qd + qdur)
            = y := by
          simpa [cycleSpans] using hy
        rw [← hy']
    · refine List.Pairwise.cons ?_ ihrest.2
      intro s hs
      have hb := cycleSpans_bounds rest (t + d + dur) hrest s hs
      show (t + d + dur : ℚ) ≤ s.2.1
      linarith [hb.1, hb.2.1]

/-- C9, witness: two concrete cycles (jitter 60000 ms then 55000 ms,
work lasting 100 ms then 200 ms) starting from the initial 5000 ms
timer: the second timer is armed exactly when the first cycle's work
finishes, and the cycles do not overlap. -/
theorem scheduler_cycles_never_overlap_witness :
    (∀ p ∈ [((60000 : ℚ), (100 : ℚ)), (55000, 200)], 0 ≤ p.1 ∧ 0 ≤ p.2) ∧
    (List.Chain' (fun a b => a.2.2 = b.1)
       (cycleSpans 5000 [((60000 : ℚ), (100 : ℚ)), (55000, 200)]) ∧
     List.Pairwise (fun a b => a.2.2 ≤ b.2.1)
       (cycleSpans 5000 [((60000 : ℚ), (100 : ℚ)), (55000, 200)])) :=
  ⟨by intro p hp; fin_cases hp <;> norm_num,
   scheduler_cycles_never_overlap 5000 [((60000 : ℚ), (100 : ℚ)), (55000, 200)]
     (by intro p hp; fin_cases hp <;> norm_num)⟩

end MSGraphWebUI
